import Mathlib

/-!
Verification of the video-conversion service orchestration core.

The definitions below are a shallow embedding, translated from the
JavaScript source of the repository (src/index.js and the unnamed cache
cleaner modules).  JavaScript strings are modelled as `List Char`
(ASCII scope), subprocess outcomes and filesystem effects are passed in
explicitly, and the event-driven parts (the yt-dlp to ffmpeg pipe, the
admission controller) are modelled as step functions over explicit state,
driven by event or operation lists.

Note on effective definitions: src/index.js contains several overlapping
iterations of the same functions; in JavaScript the last hoisted function
declaration of a name wins, so each model below is translated from the
final declaration of the corresponding name in the file (cleanVideoUrl at
line 1450, runYtDlp at line 1526, downloadVideoWithYtdlpUltimate at line
1742, convertVideoHandler at line 2153, streamYtdlpToFfmpeg at line 708,
acquireDownloadSlot / releaseDownloadSlot at line 2414 / 2424).
-/

namespace VideoSvc

/-- Characters of a string literal, the base representation for modelled
JavaScript strings. -/
def cs (s : String) : List Char := s.data

/-- Does the first list start with the second one (JavaScript
String.startsWith on the modelled character lists). -/
def startsWithL : List Char → List Char → Bool
  | _, [] => true
  | [], _ :: _ => false
  | a :: as, b :: bs => a == b && startsWithL as bs

/-- JavaScript String.includes: does the haystack contain the needle as a
contiguous substring. -/
def containsSub : List Char → List Char → Bool
  | hay, pat =>
    if startsWithL hay pat then true
    else
      match hay with
      | [] => false
      | _ :: t => containsSub t pat

/-- JavaScript String.endsWith on the modelled character lists. -/
def endsWithL (hay pat : List Char) : Bool :=
  startsWithL hay.reverse pat.reverse

/-! ## Admission controller (src/index.js lines 2402-2431)

The effective concurrency limiter is a single counter `currentDownloads`,
a configured ceiling `DEFAULT_CONCURRENCY` (at least 1: the source takes
`Math.max(1, ...)` over the environment and the cpu count), and a FIFO
list `downloadQueue` of suspended resolvers.  We model the resolvers by
caller identifiers. -/

structure SlotState where
  currentDownloads : Nat
  downloadQueue : List Nat
  deriving Repr, DecidableEq

/-- Translation of `acquireDownloadSlot` (line 2414): grant immediately
when the active count is below the ceiling, otherwise push the caller
onto the wait queue.  The returned Bool records whether the slot was
granted immediately. -/
def acquireDownloadSlot (ceiling : Nat) (st : SlotState) (caller : Nat) :
    SlotState × Bool :=
  if st.currentDownloads < ceiling then
    (⟨st.currentDownloads + 1, st.downloadQueue⟩, true)
  else
    (⟨st.currentDownloads, st.downloadQueue ++ [caller]⟩, false)

/-- Translation of `releaseDownloadSlot` (line 2424): decrement the
counter (clamped at 0, as in `Math.max(0, currentDownloads - 1)`), then
pop the first waiter, if any, and grant it (increment again). -/
def releaseDownloadSlot (st : SlotState) : SlotState :=
  let cur := st.currentDownloads - 1
  match st.downloadQueue with
  | [] => ⟨cur, []⟩
  | _ :: rest => ⟨cur + 1, rest⟩

/-- One operation against the admission controller. -/
inductive SlotOp where
  | acquire (caller : Nat)
  | release
  deriving Repr, DecidableEq

/-- Run a sequence of acquire/release operations from a given state. -/
def runSlotOps (ceiling : Nat) (st : SlotState) : List SlotOp → SlotState
  | [] => st
  | SlotOp.acquire caller :: rest =>
      runSlotOps ceiling (acquireDownloadSlot ceiling st caller).1 rest
  | SlotOp.release :: rest =>
      runSlotOps ceiling (releaseDownloadSlot st) rest

/-- The initial controller state: no active downloads, empty queue. -/
def slotInit : SlotState := ⟨0, []⟩

/-! ## Cache eviction sweep (src/unnamed/part_003, cleanOldCacheFiles) -/

/-- One directory entry as seen by the sweep: its name, last-modified
time in milliseconds, whether it is a directory, and whether the
stat/unlink calls on it succeed (the sweep catches per-file errors). -/
structure CacheFile where
  name : List Char
  mtimeMs : Int
  isDir : Bool
  statOk : Bool
  deriving Repr, DecidableEq

/-- Counters returned by the sweep, as in the source. -/
structure SweepResult where
  deleted : Nat
  errors : Nat
  skipped : Nat
  deriving Repr, DecidableEq

/-- Translation of `cleanOldCacheFiles(cacheDir, maxAgeDays)` from
src/unnamed/part_003 lines 11-60.  `dir` is `none` when the cache
directory does not exist (the `fs.existsSync` guard), otherwise the
directory listing.  Returns the counters together with the entries left
on disk after the sweep.  A file is deleted exactly when stat succeeds,
it is not a directory, and `now - mtimeMs > maxAgeDays * 24*60*60*1000`;
per-file errors increment `errors` and leave the file in place. -/
def cleanOldCacheFiles (now : Int) (maxAgeDays : Int) :
    Option (List CacheFile) → SweepResult × List CacheFile
  | none => (⟨0, 0, 0⟩, [])
  | some files =>
    let maxAgeMs : Int := maxAgeDays * 24 * 60 * 60 * 1000
    let step := fun (acc : SweepResult × List CacheFile) (f : CacheFile) =>
      if !f.statOk then
        (⟨acc.1.deleted, acc.1.errors + 1, acc.1.skipped⟩, acc.2 ++ [f])
      else if f.isDir then
        (⟨acc.1.deleted, acc.1.errors, acc.1.skipped + 1⟩, acc.2 ++ [f])
      else if now - f.mtimeMs > maxAgeMs then
        (⟨acc.1.deleted + 1, acc.1.errors, acc.1.skipped⟩, acc.2)
      else
        (⟨acc.1.deleted, acc.1.errors, acc.1.skipped + 1⟩, acc.2 ++ [f])
    files.foldl step (⟨0, 0, 0⟩, [])

/-! ## Streaming pipe session (src/index.js lines 708-791,
streamYtdlpToFfmpeg)

The session wires yt-dlp stdout into ffmpeg stdin and settles the
promise from the process event handlers.  The translation below is an
event-driven step function: each `PipeEvent` is one callback firing.
The source installs NO timers in this function, and its ffmpeg close
handler checks only the exit code - it never consults the filesystem -
so the model threads the output-file state (`outFileSize`, `none` when
the file does not exist) through unchanged and unread, mirroring the
source. -/

inductive PipeEvent where
  /-- a data chunk on yt-dlp stdout (piped into ffmpeg stdin) -/
  | ytOutData (bytes : Nat)
  /-- a data chunk on yt-dlp stderr -/
  | ytErrData
  /-- a data chunk on ffmpeg stderr -/
  | ffErrData
  /-- ffmpeg close event with its exit code -/
  | ffClose (code : Int)
  /-- ffmpeg error event (spawn failure) -/
  | ffError
  /-- yt-dlp error event (spawn failure) -/
  | ytError
  /-- yt-dlp close event with its exit code -/
  | ytClose (code : Int)
  deriving Repr, DecidableEq

/-- The two rejection kinds produced by the source handlers. -/
inductive PipeFailure where
  | pipedFailed
  | spawnError
  deriving Repr, DecidableEq

/-- How the session promise settled: `resolved` for resolve, `rejected`
with the message kind for reject. -/
inductive PipeOutcome where
  | resolved
  | rejected (f : PipeFailure)
  deriving Repr, DecidableEq

structure PipeState where
  settled : Option PipeOutcome
  ytKilled : Bool
  ffKilled : Bool
  deriving Repr, DecidableEq

/-- Settle a promise: in JavaScript only the first resolve/reject wins. -/
def settleFirst (st : Option PipeOutcome) (r : PipeOutcome) :
    Option PipeOutcome :=
  match st with
  | some v => some v
  | none => some r

/-- Translation of the event handlers installed by `streamYtdlpToFfmpeg`:
data events only append to log buffers; the ffmpeg close handler kills
yt-dlp and resolves on exit code 0, rejects otherwise; either error
handler kills the peer process and rejects; the yt-dlp close handler
does nothing (the source comment says the final failure is left to
ffmpeg). -/
def pipeStep (_outFileSize : Option Nat) (st : PipeState) :
    PipeEvent → PipeState
  | PipeEvent.ytOutData _ => st
  | PipeEvent.ytErrData => st
  | PipeEvent.ffErrData => st
  | PipeEvent.ffClose code =>
      { st with
        ytKilled := true
        settled :=
          settleFirst st.settled
            (if code == 0 then PipeOutcome.resolved
             else PipeOutcome.rejected PipeFailure.pipedFailed) }
  | PipeEvent.ffError =>
      { st with ytKilled := true
                settled := settleFirst st.settled
                  (PipeOutcome.rejected PipeFailure.spawnError) }
  | PipeEvent.ytError =>
      { st with ffKilled := true
                settled := settleFirst st.settled
                  (PipeOutcome.rejected PipeFailure.spawnError) }
  | PipeEvent.ytClose _ => st

/-- Initial session state: promise pending, both processes alive. -/
def pipeInit : PipeState := ⟨none, false, false⟩

/-- Run a whole session: fold the events that fired, in order.  The
output-file state is passed along exactly as available to the source
handlers (which ignore it). -/
def runPipe (outFileSize : Option Nat) (events : List PipeEvent) : PipeState :=
  events.foldl (pipeStep outFileSize) pipeInit

/-- Events that can settle the session promise, per the source handlers. -/
def isSettlingEvent : PipeEvent → Bool
  | PipeEvent.ffClose _ => true
  | PipeEvent.ffError => true
  | PipeEvent.ytError => true
  | _ => false

/-- The minimum plausible output size demanded by the specification for a
successful pipe session (the source never checks any such bound; this
definition exists to state the specification side of claim C4). -/
def specPipeSuccessCondition (exitCode : Int) (outFileSize : Option Nat)
    (minSize : Nat) : Prop :=
  exitCode = 0 ∧ ∃ n, outFileSize = some n ∧ n > minSize

/-! ## The yt-dlp runner with corrective retries (src/index.js lines
1526-1640, runYtDlp)

The subprocess itself is an oracle `exec` mapping an argument list to an
exit code with captured stdout/stderr; `runYtDlpModel` is the
translation of the close handler, including the two corrective retries:
the https-to-http proxy downgrade on missing HTTPS-proxy dependencies,
and the retry without the proxy argument on proxy connectivity
failures. -/

structure ProcResult where
  code : Int
  stdout : List Char
  stderr : List Char
  deriving Repr, DecidableEq

/-- The rejection payload built at the end of the close handler: the
original exit code, stdout and stderr. -/
structure YtDlpError where
  code : Int
  stdout : List Char
  stderr : List Char
  deriving Repr, DecidableEq

/-- Lowercase a modelled string (JavaScript toLowerCase, ASCII scope). -/
def toLowerL (l : List Char) : List Char := l.map Char.toLower

/-- Indicators for the missing-HTTPS-proxy-dependency fallback (source
lines 1553-1555). -/
def httpsDepsIndicated (fullErr : List Char) : Bool :=
  containsSub fullErr (cs ("To use an HTTPS proxy for this request")) ||
  containsSub fullErr
    (cs ("one of the following dependencies needs to be installed: requests, curl_cffi"))

/-- Indicators for a proxy connectivity failure (source lines
1584-1590). -/
def proxyFailureIndicated (fullErr : List Char) : Bool :=
  containsSub fullErr (cs ("Unable to connect to proxy")) ||
  containsSub fullErr (cs ("Tunnel connection failed")) ||
  containsSub fullErr (cs ("ProxyError")) ||
  containsSub fullErr (cs ("Tunnel connection failed: 404")) ||
  containsSub fullErr (cs ("Tunnel connection failed: 403"))

/-- Index of the first occurrence of an argument (JavaScript findIndex /
indexOf over the argument array). -/
def idxOfArg (args : List (List Char)) (needle : List Char) : Option Nat :=
  go args 0
where
  go : List (List Char) → Nat → Option Nat
    | [], _ => none
    | a :: rest, i => if a = needle then some i else go rest (i + 1)

/-- The https-to-http downgrade of a proxy value, modelling
`value.replace(/^https:/i, 'http:')`. -/
def downgradeProxyValue (v : List Char) : List Char :=
  if startsWithL (toLowerL v) (cs ("https:")) then cs ("http:") ++ v.drop 6
  else v

/-- Translation of the close handler of `runYtDlp` (lines 1543-1639).
`exec` gives the outcome of spawning yt-dlp on a given argument list;
the first spawn uses `args`, each corrective retry re-invokes `exec` on
the adjusted argument list.  On a still-failing retry the ORIGINAL
error context is rejected. -/
def runYtDlpModel (exec : List (List Char) → ProcResult)
    (args : List (List Char)) : Except YtDlpError ProcResult :=
  let first := exec args
  if first.code == 0 then Except.ok first
  else
    let fullErr := first.stderr ++ first.stdout
    let originalErr : YtDlpError := ⟨first.code, first.stdout, first.stderr⟩
    let httpsRetry : Option ProcResult :=
      if httpsDepsIndicated fullErr then
        match idxOfArg args (cs ("--proxy")) with
        | some pi =>
          match args.get? (pi + 1) with
          | some v =>
            if v ≠ [] && startsWithL (toLowerL v) (cs ("https://")) then
              let r := exec (args.set (pi + 1) (downgradeProxyValue v))
              if r.code == 0 then some r else none
            else none
          | none => none
        | none => none
      else none
    match httpsRetry with
    | some r => Except.ok r
    | none =>
      if proxyFailureIndicated fullErr then
        match idxOfArg args (cs ("--proxy")) with
        | some pi =>
          let r := exec (args.take pi ++ args.drop (pi + 2))
          if r.code == 0 then Except.ok r else Except.error originalErr
        | none => Except.error originalErr
      else Except.error originalErr

/-! ## The layered download (src/index.js lines 1742-2005,
downloadVideoWithYtdlpUltimate)

The fallback ladder is the nested try/catch at lines 1860-1928: layer 1
(primary client), layer 2 (tv_embedded), layer 3 (web_safari), layer 4
(web_embedded).  A layer outcome is `none` for exit code 0 and
`some stderr` for a non-zero exit of `runYtDlp` (corrective retries
already applied inside it).

The decisive scoping fact, mirrored faithfully below: the variable
`lastYtdlpError` is declared with `let` INSIDE the `catch (firstErr)`
block (line 1865), so its scope ends with that block, and the statement
`if (lastYtdlpError && ...)` at line 1931 reads an identifier that is
not in scope on ANY path that reaches it - JavaScript throws a
ReferenceError there (reading an undeclared identifier throws, in
sloppy and strict mode alike; only assignments create implicit
globals).  The HLS retry and the file-discovery code below line 1931
are therefore unreachable. -/

inductive JsThrow where
  /-- ReferenceError: lastYtdlpError is not defined (line 1931) -/
  | referenceErrorLastYtdlpError
  /-- a rejected runYtDlp promise that escaped the ladder (layer 4 failed) -/
  | ytdlpFailure (stderr : List Char)
  /-- DOWNLOAD_FAILED: yt-dlp did not produce an output file (line 1988) -/
  | downloadFailed
  deriving Repr, DecidableEq

/-- The ladder itself (lines 1860-1928): returns the 1-based indices of
the layers that were invoked when control leaves the ladder normally,
or the propagated error of layer 4.  A layer that exits 0 stops the
ladder (the remaining layers are not tried). -/
def layeredAttempts (l1 l2 l3 l4 : Option (List Char)) :
    Except JsThrow (List Nat) :=
  match l1 with
  | none => Except.ok [1]
  | some _ =>
    match l2 with
    | none => Except.ok [1, 2]
    | some _ =>
      match l3 with
      | none => Except.ok [1, 2, 3]
      | some _ =>
        match l4 with
        | none => Except.ok [1, 2, 3, 4]
        | some e4 => Except.error (JsThrow.ytdlpFailure e4)

/-- Reading an identifier under the JavaScript scoping rules: `none`
means the identifier is not bound in any enclosing scope, in which case
the read throws ReferenceError. -/
def readLastYtdlpError (inScope : Option (Option (List Char))) :
    Except JsThrow (Option (List Char)) :=
  match inScope with
  | none => Except.error JsThrow.referenceErrorLastYtdlpError
  | some v => Except.ok v

/-- After the `catch (firstErr)` block has closed, the `let`-binding of
`lastYtdlpError` made inside it is dead: the identifier is not in scope
at line 1931. -/
def scopeAtLine1931 : Option (Option (List Char)) := none

/-- File discovery (lines 1966-2000): list the output directory, keep
files named `ytdlp_<videoId>.<audio ext>`, fail with DOWNLOAD_FAILED
when none exists, prefer an .mp3, otherwise convert the first match to
.mp3 (modelled as the extension rewrite that convertToMp3Ultimate
performs on the name).  Reachable only if line 1931 did not throw. -/
def findProducedFile (outputDir videoId : List Char)
    (dirListing : List (List Char)) : Except JsThrow (List Char) :=
  let pre := cs ("ytdlp_") ++ videoId ++ cs (".")
  let files := dirListing.filter (fun f =>
    startsWithL f pre &&
    (endsWithL f (cs (".mp3")) || endsWithL f (cs (".webm")) ||
     endsWithL f (cs (".m4a")) || endsWithL f (cs (".wav")) ||
     endsWithL f (cs (".aac"))))
  match files.find? (fun f => endsWithL f (cs (".mp3"))) with
  | some f => Except.ok (outputDir ++ cs ("/") ++ f)
  | none =>
    match files with
    | [] => Except.error JsThrow.downloadFailed
    | f :: _ =>
      let full := outputDir ++ cs ("/") ++ f
      -- the extension rewrite of `finalPath.replace(/\.(webm|m4a|wav|aac)$/, '.mp3')`
      let mp3Path :=
        if endsWithL full (cs (".webm")) then full.take (full.length - 5) ++ cs (".mp3")
        else if endsWithL full (cs (".m4a")) || endsWithL full (cs (".wav")) ||
                endsWithL full (cs (".aac")) then
          full.take (full.length - 4) ++ cs (".mp3")
        else full
      Except.ok mp3Path

/-- Translation of the layered part of `downloadVideoWithYtdlpUltimate`
(line 1742): the optional piped fast path returns early on success and
falls through on failure; then the ladder runs; when control survives
the ladder, line 1931 reads the out-of-scope `lastYtdlpError`, so the
function rejects with a ReferenceError before reaching file discovery.
The second component records which ladder layers were invoked. -/
def downloadUltimate (pipeAttempted pipeOk : Bool)
    (l1 l2 l3 l4 : Option (List Char)) (outputDir videoId : List Char)
    (dirListing : List (List Char)) :
    Except JsThrow (List Char) × List Nat :=
  if pipeAttempted && pipeOk then
    (Except.ok (outputDir ++ cs ("/ytdlp_") ++ videoId ++ cs (".mp3")), [])
  else
    match layeredAttempts l1 l2 l3 l4 with
    | Except.error e => (Except.error e, [1, 2, 3, 4])
    | Except.ok att =>
      match readLastYtdlpError scopeAtLine1931 with
      | Except.error e => (Except.error e, att)
      | Except.ok _ =>
        -- dead branch, kept to mirror the source text below line 1931
        (findProducedFile outputDir videoId dirListing, att)

/-! ## URL normalizer (src/index.js lines 1450-1494, cleanVideoUrl)

The source drives the WHATWG URL class: `new URL(raw,
'https://www.youtube.com')`, `hostname`, `pathname`, `searchParams.get`
and the URLSearchParams serializer.  The model below implements the
slice of that machinery the function exercises, in ASCII scope: scheme
recognition, authority splitting with host lowercasing and port/user
stripping, base-relative resolution against https://www.youtube.com/,
percent-encoding of the path, and the form-urlencoded decode/encode
used by URLSearchParams (plus-as-space, percent escapes, the
alphanumeric/`*-._` safe set). -/

/-- Whitespace trimmed by JavaScript String.trim (ASCII slice). -/
def isJsWhitespace (c : Char) : Bool :=
  c == ' ' || c == '\t' || c == '\n' || c == '\r' ||
  c == Char.ofNat 11 || c == Char.ofNat 12

/-- JavaScript String.trim on the modelled strings. -/
def trimChars (l : List Char) : List Char :=
  ((l.dropWhile isJsWhitespace).reverse.dropWhile isJsWhitespace).reverse

/-- Characters allowed by the bare-identifier test `[A-Za-z0-9_-]`. -/
def isIdChar (c : Char) : Bool :=
  c.isAlpha || c.isDigit || c == '_' || c == '-'

/-- The test `/^[A-Za-z0-9_-]{11}$/` for a bare 11-character id. -/
def isPlainId11 (l : List Char) : Bool :=
  l.length == 11 && l.all isIdChar

/-- A nonempty identifier made only of the standard id characters
`[A-Za-z0-9_-]` (used to delimit the idempotent input shapes). -/
def isPlainSeg (l : List Char) : Bool :=
  !l.isEmpty && l.all isIdChar

/-- Split a character list at the first character satisfying `p`; the
second component starts with that character (or is empty). -/
def breakAt (p : Char → Bool) (l : List Char) : List Char × List Char :=
  (l.takeWhile (fun c => !p c), l.dropWhile (fun c => !p c))

/-- Split on a separator character, keeping empty pieces (JavaScript
String.split semantics). -/
def splitOnChar (sep : Char) : List Char → List (List Char)
  | [] => [[]]
  | c :: r =>
    if c == sep then [] :: splitOnChar sep r
    else
      match splitOnChar sep r with
      | [] => [[c]]
      | h :: t => (c :: h) :: t

/-- Value of one hexadecimal digit. -/
def hexVal (c : Char) : Option Nat :=
  if c.isDigit then some (c.toNat - 48)
  else if 'A' ≤ c && c ≤ 'F' then some (c.toNat - 55)
  else if 'a' ≤ c && c ≤ 'f' then some (c.toNat - 87)
  else none

/-- Uppercase hexadecimal digit of a value below 16. -/
def hexDigitU (n : Nat) : Char :=
  if n < 10 then Char.ofNat (48 + n) else Char.ofNat (55 + n)

/-- URLSearchParams decoding of one component: plus becomes space,
valid percent escapes decode to their byte, invalid escapes stay
literal (ASCII scope). -/
def formDecode : List Char → List Char
  | [] => []
  | '+' :: r => ' ' :: formDecode r
  | '%' :: a :: b :: r =>
    match hexVal a, hexVal b with
    | some x, some y => Char.ofNat (16 * x + y) :: formDecode r
    | _, _ => '%' :: formDecode (a :: b :: r)
  | c :: r => c :: formDecode r

/-- Characters the URLSearchParams serializer leaves unescaped. -/
def formSafeChar (c : Char) : Bool :=
  c.isAlpha || c.isDigit || c == '*' || c == '-' || c == '.' || c == '_'

/-- URLSearchParams encoding of one component (ASCII scope). -/
def formEncode : List Char → List Char
  | [] => []
  | c :: r =>
    if c == ' ' then '+' :: formEncode r
    else if formSafeChar c then c :: formEncode r
    else '%' :: hexDigitU (c.toNat / 16 % 16) :: hexDigitU (c.toNat % 16) :: formEncode r

/-- Characters serialized verbatim in a URL path by the WHATWG parser
(ASCII scope; percent signs pass through, as valid escapes are kept and
the source never feeds the path back through a decoder). -/
def pathSafeChar (c : Char) : Bool :=
  c.isAlpha || c.isDigit || (cs ("!$&()*+,-./:;=@_~%")).contains c ||
  c == Char.ofNat 39

/-- Percent-encode the characters of a path that the WHATWG parser
escapes (ASCII scope). -/
def encodePathChars : List Char → List Char
  | [] => []
  | c :: r =>
    if pathSafeChar c then c :: encodePathChars r
    else '%' :: hexDigitU (c.toNat / 16 % 16) :: hexDigitU (c.toNat % 16) :: encodePathChars r

/-- Parsed query pairs with decoded names and values (URLSearchParams:
split on ampersands, drop empty pieces, split each piece at the first
equals sign, decode both sides). -/
def queryPairs (search : List Char) : List (List Char × List Char) :=
  ((splitOnChar '&' search).filter (fun s => !s.isEmpty)).map fun piece =>
    let nv := breakAt (fun c => c == '=') piece
    (formDecode nv.1, formDecode (nv.2.drop 1))

/-- searchParams.get: the decoded value of the first pair with the given
name, or none. -/
def searchParamsGet (search name : List Char) : Option (List Char) :=
  ((queryPairs search).find? (fun p => p.1 = name)).map Prod.snd

/-- The components of a parsed URL that cleanVideoUrl consumes. -/
structure JsUrl where
  scheme : List Char
  host : List Char
  pathname : List Char
  search : List Char
  deriving Repr, DecidableEq

/-- Recognize a leading `scheme:` (one letter, then letters, digits,
plus, dot or hyphen, then a colon), returning the lowercased scheme and
the remainder. -/
def schemeSplit (l : List Char) : Option (List Char × List Char) :=
  match l with
  | [] => none
  | c :: _ =>
    if !c.isAlpha then none
    else
      let br := breakAt
        (fun c => !(c.isAlpha || c.isDigit || c == '+' || c == '.' || c == '-')) l
      match br.2 with
      | ':' :: r => some (toLowerL br.1, r)
      | _ => none

/-- Split the part after a path into pathname and search (an empty path
becomes the root path, the fragment is discarded). -/
def parsePathSearch (tail : List Char) : List Char × List Char :=
  match tail with
  | '/' :: _ =>
    let br := breakAt (fun c => c == '?' || c == '#') tail
    match br.2 with
    | '?' :: q => (br.1, (breakAt (fun c => c == '#') q).1)
    | _ => (br.1, [])
  | '?' :: q => (cs ("/"), (breakAt (fun c => c == '#') q).1)
  | _ => (cs ("/"), [])

/-- Build a URL from scheme and the text after the double slash: split
off the authority, drop userinfo (the part before the last at sign) and
the port, lowercase the host, normalize the path. -/
def mkFromAuthority (sch r : List Char) : JsUrl :=
  let br := breakAt (fun c => c == '/' || c == '?' || c == '#') r
  let hostport :=
    match (splitOnChar '@' br.1).getLast? with
    | some h => h
    | none => br.1
  let host := toLowerL (breakAt (fun c => c == ':') hostport).1
  let ps := parsePathSearch br.2
  ⟨sch, host, encodePathChars ps.1, ps.2⟩

/-- The base URL used by the source, https://www.youtube.com (path `/`,
empty query). -/
def youtubeBase : JsUrl := ⟨cs ("https"), cs ("www.youtube.com"), cs ("/"), []⟩

/-- Model of `new URL(raw)` (withBase false) and `new URL(raw,
'https://www.youtube.com')` (withBase true): http/https URLs go through
authority parsing (tolerating a missing double slash, as WHATWG does
for special schemes); other schemes parse opaquely with an empty host;
scheme-less input is an error without a base and is resolved against
the base otherwise. -/
def parseJsUrl (raw : List Char) (withBase : Bool) : Option JsUrl :=
  match schemeSplit raw with
  | some (sch, rest) =>
    if sch = cs ("http") || sch = cs ("https") then
      some (mkFromAuthority sch (rest.dropWhile (fun c => c == '/')))
    else
      let br := breakAt (fun c => c == '?' || c == '#') rest
      let search :=
        match br.2 with
        | '?' :: q => (breakAt (fun c => c == '#') q).1
        | _ => []
      some ⟨sch, [], br.1, search⟩
  | none =>
    if !withBase then none
    else
      match raw with
      | [] => some youtubeBase
      | '/' :: '/' :: r => some (mkFromAuthority (cs ("https")) r)
      | '/' :: _ =>
        let ps := parsePathSearch raw
        some ⟨cs ("https"), cs ("www.youtube.com"), encodePathChars ps.1, ps.2⟩
      | '?' :: q =>
        some ⟨cs ("https"), cs ("www.youtube.com"), cs ("/"),
              (breakAt (fun c => c == '#') q).1⟩
      | '#' :: _ => some youtubeBase
      | _ =>
        let ps := parsePathSearch (cs ("/") ++ raw)
        some ⟨cs ("https"), cs ("www.youtube.com"), encodePathChars ps.1, ps.2⟩

/-- The canonical watch URL the normalizer synthesizes by template
concatenation (no re-encoding of the id). -/
def watchUrlOf (id : List Char) : List Char :=
  cs ("https://www.youtube.com/watch?v=") ++ id

/-- Nonempty path segments (`pathname.split('/').filter(Boolean)`). -/
def splitPathSegs (pathname : List Char) : List (List Char) :=
  (splitOnChar '/' pathname).filter (fun s => !s.isEmpty)

/-- The segment after the first occurrence of `key`, when present and
nonempty (the `parts.indexOf(...) !== -1 && parts[idx+1]` tests). -/
def segAfter (parts : List (List Char)) (key : List Char) :
    Option (List Char) :=
  match idxOfArg parts key with
  | some i =>
    match parts.get? (i + 1) with
    | some nxt => if nxt.isEmpty then none else some nxt
    | none => none
  | none => none

/-- The fall-through of the youtube.com branch: look for `/embed/<id>`
or `/v/<id>` path forms, else return the trimmed input. -/
def pathFallbackResult (u : JsUrl) (raw : List Char) : List Char :=
  let parts := splitPathSegs u.pathname
  match segAfter parts (cs ("embed")) with
  | some nxt => watchUrlOf nxt
  | none =>
    match segAfter parts (cs ("v")) with
    | some nxt => watchUrlOf nxt
    | none => raw

/-- Translation of `cleanVideoUrl` (line 1450): trim; synthesize a
watch URL from a bare 11-character id; resolve short youtu.be links
from the first path segment; for youtube hosts keep only the `v` and
optional `t` query parameters, rebuilt through the URLSearchParams
serializer; fall back to embed/v path forms; return the input on a
parse failure. -/
def cleanVideoUrl (input : List Char) : List Char :=
  let raw := trimChars input
  if raw.isEmpty then raw
  else if isPlainId11 raw then watchUrlOf raw
  else
    match parseJsUrl raw true with
    | none => input
    | some u =>
      if u.host = cs ("youtu.be") then
        let id := (u.pathname.dropWhile (fun c => c == '/')).takeWhile
          (fun c => c != '/')
        if id.isEmpty then raw else watchUrlOf id
      else if endsWithL u.host (cs ("youtube.com")) ||
              containsSub u.host (cs ("youtube")) then
        match searchParamsGet u.search (cs ("v")) with
        | some v =>
          if v.isEmpty then pathFallbackResult u raw
          else
            let base := cs ("https://www.youtube.com/watch?v=") ++ formEncode v
            match searchParamsGet u.search (cs ("t")) with
            | some t =>
              if t.isEmpty then base else base ++ cs ("&t=") ++ formEncode t
            | none => base
        | none => pathFallbackResult u raw
      else raw

/-- Translation of `isSupportedVideoUrl` (line 1428): parse without a
base (a parse failure yields false) and test the hostname against the
supported platform substrings. -/
def isSupportedVideoUrl (url : List Char) : Bool :=
  match parseJsUrl url false with
  | none => false
  | some u =>
    containsSub u.host (cs ("youtube.com")) ||
    containsSub u.host (cs ("youtu.be")) ||
    containsSub u.host (cs ("tiktok.com")) ||
    containsSub u.host (cs ("instagram.com")) ||
    containsSub u.host (cs ("twitter.com")) ||
    containsSub u.host (cs ("x.com"))

/-! ## Conversion request handler (src/index.js lines 2153-2308,
convertVideoHandler)

The handler is modelled as a pure function of the request, an
environment of per-request nondeterminism (the uuid picked for the
cache name, the settled download promise, filesystem success flags) and
the cache directory listing before the request.  Its output records the
HTTP response, the cache listing afterwards, which paths the
conversion flow unlinked, and the admission slot operations made. -/

structure ConvertReq where
  videoUrl : Option (List Char)
  fileUpload : Option (List Char)
  premium : Bool
  deriving Repr, DecidableEq

structure HandlerEnv where
  /-- the uuid chosen by `uuidv4()` for this request's cache name -/
  freshName : List Char
  /-- how `downloadVideoWithYtdlpUltimate` settled: a produced path or
  the rejection message -/
  download : Except (List Char) (List Char)
  /-- `safeExists(producedPath)` after a fulfilled download -/
  producedExists : Bool
  /-- `fs.copyFileSync(producedPath, outputFilePath)` succeeds -/
  copyOk : Bool
  /-- the fallback `fs.renameSync(producedPath, outputFilePath)` succeeds -/
  renameOk : Bool
  /-- the upload branch's `convertToMp3Ultimate` (and its copy) succeeds -/
  convertOk : Bool
  deriving Repr

inductive HandlerResp where
  /-- res.status(400).json with the given errorCode -/
  | badRequest (errorCode : List Char)
  /-- res.status(500).json with the given errorCode -/
  | serverError (errorCode : List Char)
  /-- res.json({url, fileName}): the caller is pointed at this cache
  entry -/
  | okUrl (fileName : List Char)
  deriving Repr, DecidableEq

structure HandlerOut where
  resp : HandlerResp
  cache : List (List Char)
  unlinked : List (List Char)
  acquires : Nat
  releases : Nat
  deriving Repr, DecidableEq

/-- The path of a cache entry (CACHE_DIR modelled as /cache). -/
def cachePathOf (name : List Char) : List Char := cs ("/cache/") ++ name

/-- Translation of `convertVideoHandler` (line 2153).  Control flow:
reject when neither a URL nor an upload is present; validate the URL
when present; the URL branch acquires a download slot, awaits the
download, verifies the produced path, copies it into the uuid-named
cache path with a rename fallback (both failing throws
CACHE_WRITE_FAILED into the catch, which answers 500
PROCESSING_ERROR), cleans up the produced file, and releases the slot
in the finally block; the upload branch runs only when no URL is
present (else-if); finally the handler checks the cache entry exists
and answers with its URL. -/
def convertVideoHandler (env : HandlerEnv) (cache0 : List (List Char))
    (req : ConvertReq) : HandlerOut :=
  match req.videoUrl, req.fileUpload with
  | none, none => ⟨HandlerResp.badRequest (cs ("INVALID_INPUT")), cache0, [], 0, 0⟩
  | some url, _ =>
    let urlT := trimChars url
    if !isSupportedVideoUrl urlT then
      ⟨HandlerResp.badRequest (cs ("INVALID_URL")), cache0, [], 0, 0⟩
    else
      let outputFileName := env.freshName ++ cs (".mp3")
      let outputFilePath := cachePathOf outputFileName
      -- URL branch: slot acquired, download awaited
      match env.download with
      | Except.error _ =>
        ⟨HandlerResp.serverError (cs ("PROCESSING_ERROR")), cache0, [], 1, 1⟩
      | Except.ok producedPath =>
        if producedPath.isEmpty then
          -- DOWNLOAD_FAILED: not a valid output path
          ⟨HandlerResp.serverError (cs ("PROCESSING_ERROR")), cache0, [], 1, 1⟩
        else if !env.producedExists then
          -- DOWNLOAD_FAILED: produced file missing on disk
          ⟨HandlerResp.serverError (cs ("PROCESSING_ERROR")), cache0, [], 1, 1⟩
        else if env.copyOk then
          -- copy succeeded; cleanup unlinks the produced file when it
          -- is a different path and still exists
          let cache1 := cache0 ++ [outputFileName]
          let unlinked :=
            if producedPath ≠ outputFilePath then [producedPath] else []
          if cache1.contains outputFileName then
            ⟨HandlerResp.okUrl outputFileName, cache1, unlinked, 1, 1⟩
          else
            ⟨HandlerResp.serverError (cs ("MISSING_OUTPUT")), cache1, unlinked, 1, 1⟩
        else if env.renameOk then
          -- rename moved the produced file into the cache; the cleanup
          -- existsSync test is now false, so nothing is unlinked
          let cache1 := cache0 ++ [outputFileName]
          if cache1.contains outputFileName then
            ⟨HandlerResp.okUrl outputFileName, cache1, [], 1, 1⟩
          else
            ⟨HandlerResp.serverError (cs ("MISSING_OUTPUT")), cache1, [], 1, 1⟩
        else
          -- CACHE_WRITE_FAILED thrown into the catch block
          ⟨HandlerResp.serverError (cs ("PROCESSING_ERROR")), cache0, [], 1, 1⟩
  | none, some uploadPath =>
    let outputFileName := env.freshName ++ cs (".mp3")
    if !env.convertOk then
      ⟨HandlerResp.serverError (cs ("CONVERSION_ERROR")), cache0, [], 0, 0⟩
    else
      let tmpOut := cs ("/tmp/converted_") ++ env.freshName ++ cs (".mp3")
      let cache1 := cache0 ++ [outputFileName]
      if cache1.contains outputFileName then
        ⟨HandlerResp.okUrl outputFileName, cache1, [tmpOut, uploadPath], 0, 0⟩
      else
        ⟨HandlerResp.serverError (cs ("MISSING_OUTPUT")), cache1, [tmpOut, uploadPath], 0, 0⟩

/-! ## Helper lemmas -/

/-- The admission counter stays below the ceiling under any operation
sequence, from any state already below the ceiling. -/
theorem runSlotOps_le (ceiling : Nat) (hc : 1 ≤ ceiling) :
    ∀ (ops : List SlotOp) (st : SlotState),
      st.currentDownloads ≤ ceiling →
      (runSlotOps ceiling st ops).currentDownloads ≤ ceiling := by
  intro ops
  induction ops with
  | nil => intro st h; simpa [runSlotOps] using h
  | cons op rest ih =>
    intro st h
    cases op with
    | acquire caller =>
      simp only [runSlotOps]
      by_cases hlt : st.currentDownloads < ceiling
      · rw [show (acquireDownloadSlot ceiling st caller).1 =
            ⟨st.currentDownloads + 1, st.downloadQueue⟩ from by
          simp [acquireDownloadSlot, hlt]]
        exact ih _ (by show st.currentDownloads + 1 ≤ ceiling; omega)
      · rw [show (acquireDownloadSlot ceiling st caller).1 =
            ⟨st.currentDownloads, st.downloadQueue ++ [caller]⟩ from by
          simp [acquireDownloadSlot, hlt]]
        exact ih _ (by show st.currentDownloads ≤ ceiling; omega)
    | release =>
      simp only [runSlotOps]
      cases hq : st.downloadQueue with
      | nil =>
        rw [show releaseDownloadSlot st = ⟨st.currentDownloads - 1, []⟩ from by
          simp [releaseDownloadSlot, hq]]
        exact ih _ (by show st.currentDownloads - 1 ≤ ceiling; omega)
      | cons w ws =>
        rw [show releaseDownloadSlot st = ⟨st.currentDownloads - 1 + 1, ws⟩ from by
          simp [releaseDownloadSlot, hq]]
        exact ih _ (by show st.currentDownloads - 1 + 1 ≤ ceiling; omega)

/-- A non-settling event leaves the pipe session state unchanged. -/
theorem pipeStep_nonsettling (fs : Option Nat) (st : PipeState)
    (e : PipeEvent) (h : isSettlingEvent e = false) :
    pipeStep fs st e = st := by
  cases e <;> simp_all [pipeStep, isSettlingEvent]

/-! ## Claim theorems -/

/-- Claim C5: for every sequence of acquire/release operations on the
admission controller, the number of concurrently held download slots
never exceeds the configured concurrency ceiling, and an acquire issued
while the pool is saturated enqueues the caller (no grant, no failure,
counter unchanged). -/
theorem C5_admission_ceiling (ceiling : Nat) (hc : 1 ≤ ceiling)
    (ops : List SlotOp) :
    (runSlotOps ceiling slotInit ops).currentDownloads ≤ ceiling ∧
    (∀ st caller, ceiling ≤ st.currentDownloads →
      acquireDownloadSlot ceiling st caller =
        (⟨st.currentDownloads, st.downloadQueue ++ [caller]⟩, false)) := by
  constructor
  · exact runSlotOps_le ceiling hc ops slotInit (by simp [slotInit])
  · intro st caller hsat
    have : ¬ st.currentDownloads < ceiling := by omega
    simp [acquireDownloadSlot, this]

/-- Witness for C5 at ceiling 2 with three acquires and a release. -/
theorem C5_admission_ceiling_witness :
    (runSlotOps 2 slotInit
      [SlotOp.acquire 0, SlotOp.acquire 1, SlotOp.acquire 2,
       SlotOp.release]).currentDownloads ≤ 2 :=
  (C5_admission_ceiling 2 (by decide)
    [SlotOp.acquire 0, SlotOp.acquire 1, SlotOp.acquire 2,
     SlotOp.release]).1

/-- Claim C9: an eviction sweep over a cache directory holding one file
aged beyond the threshold and one file within it deletes exactly the
first and keeps the second (counters: 1 deleted, 0 errors, 1 kept). -/
theorem C9_eviction_sweep (now maxAgeDays : Int) (f1 f2 : CacheFile)
    (h1ok : f1.statOk = true) (h1d : f1.isDir = false)
    (h2ok : f2.statOk = true) (h2d : f2.isDir = false)
    (hold : now - f1.mtimeMs > maxAgeDays * 24 * 60 * 60 * 1000)
    (hyoung : ¬ now - f2.mtimeMs > maxAgeDays * 24 * 60 * 60 * 1000) :
    cleanOldCacheFiles now maxAgeDays (some [f1, f2]) =
      (⟨1, 0, 1⟩, [f2]) := by
  simp [cleanOldCacheFiles, h1ok, h1d, h2ok, h2d, hold, hyoung]

/-- Witness for C9: day-granularity ages around a 7-day threshold. -/
theorem C9_eviction_sweep_witness :
    cleanOldCacheFiles 864000000 7
      (some [⟨cs ("old.mp3"), 0, false, true⟩,
             ⟨cs ("fresh.mp3"), 863000000, false, true⟩]) =
      (⟨1, 0, 1⟩, [⟨cs ("fresh.mp3"), 863000000, false, true⟩]) :=
  C9_eviction_sweep 864000000 7 ⟨cs ("old.mp3"), 0, false, true⟩
    ⟨cs ("fresh.mp3"), 863000000, false, true⟩ rfl rfl rfl rfl
    (by decide) (by decide)

/-- Claim C3, counterexample: the claim states that a pipe session with
no bytes observed beyond the inactivity threshold force-terminates both
subprocesses and fails with a timeout.  The source installs no timer of
any kind in streamYtdlpToFfmpeg: in the session below (no output file,
no events at all - in particular no bytes for ANY length of time) the
promise stays pending and neither subprocess is killed, refuting the
claim at this concrete session. -/
theorem C3_counterexample :
    (runPipe none []).settled = none ∧
    (runPipe none []).ytKilled = false ∧
    (runPipe none []).ffKilled = false := by
  decide

/-- Claim C3, amended: streamYtdlpToFfmpeg has no inactivity watchdog;
a session in which no settling process event occurs (no ffmpeg close or
error, no yt-dlp spawn error) - regardless of how little data flowed -
stays pending forever with both subprocesses alive. -/
theorem C3_amended_no_watchdog (fs : Option Nat) (events : List PipeEvent)
    (h : ∀ e ∈ events, isSettlingEvent e = false) :
    (runPipe fs events).settled = none ∧
    (runPipe fs events).ytKilled = false ∧
    (runPipe fs events).ffKilled = false := by
  have key : runPipe fs events = pipeInit := by
    unfold runPipe
    induction events with
    | nil => rfl
    | cons e rest ih =>
      have he : isSettlingEvent e = false := h e (List.mem_cons_self e rest)
      have hr : ∀ x ∈ rest, isSettlingEvent x = false :=
        fun x hx => h x (List.mem_cons_of_mem e hx)
      rw [List.foldl_cons, pipeStep_nonsettling fs pipeInit e he]
      exact ih hr
  rw [key]
  exact ⟨rfl, rfl, rfl⟩

/-- Witness for the amended C3: a session seeing only data chunks and a
yt-dlp exit stays pending with both processes unkilled. -/
theorem C3_amended_no_watchdog_witness :
    (runPipe none [PipeEvent.ytOutData 5, PipeEvent.ytErrData,
      PipeEvent.ytClose 0]).settled = none ∧
    (runPipe none [PipeEvent.ytOutData 5, PipeEvent.ytErrData,
      PipeEvent.ytClose 0]).ytKilled = false ∧
    (runPipe none [PipeEvent.ytOutData 5, PipeEvent.ytErrData,
      PipeEvent.ytClose 0]).ffKilled = false :=
  C3_amended_no_watchdog none
    [PipeEvent.ytOutData 5, PipeEvent.ytErrData, PipeEvent.ytClose 0]
    (by decide)

/-- Claim C4, counterexample: the claim states a pipe session resolves
successfully only if the transcoder exits 0 AND the output file exists
AND exceeds a minimum plausible size.  In the source the ffmpeg close
handler checks only the exit code: the session below resolves
successfully while the output file does not exist at all (so the
spec-side three-way condition fails for every minimum size). -/
theorem C4_counterexample :
    (runPipe none [PipeEvent.ffClose 0]).settled =
      some PipeOutcome.resolved ∧
    ¬ specPipeSuccessCondition 0 none 1 := by
  refine ⟨by decide, ?_⟩
  rintro ⟨-, n, hn, -⟩
  cases hn

/-- Claim C4, amended: on the transcoder's close event (after any
amount of non-settling activity) the session resolves successfully iff
the exit code is 0, rejects with PIPED_FAILED otherwise, and kills the
extraction process either way; the output file's existence and size are
never consulted. -/
theorem C4_amended_exit_code_only (fs : Option Nat)
    (pre : List PipeEvent) (code : Int)
    (h : ∀ e ∈ pre, isSettlingEvent e = false) :
    (runPipe fs (pre ++ [PipeEvent.ffClose code])).settled =
      some (if code == 0 then PipeOutcome.resolved
            else PipeOutcome.rejected PipeFailure.pipedFailed) ∧
    (runPipe fs (pre ++ [PipeEvent.ffClose code])).ytKilled = true := by
  have key : List.foldl (pipeStep fs) pipeInit pre = pipeInit := by
    induction pre with
    | nil => rfl
    | cons e rest ih =>
      have he : isSettlingEvent e = false := h e (List.mem_cons_self e rest)
      have hr : ∀ x ∈ rest, isSettlingEvent x = false :=
        fun x hx => h x (List.mem_cons_of_mem e hx)
      rw [List.foldl_cons, pipeStep_nonsettling fs pipeInit e he]
      exact ih hr
  unfold runPipe
  rw [List.foldl_append, key]
  simp [pipeStep, pipeInit, settleFirst]

/-- Witness for the amended C4: a failing exit code after some stderr
chatter rejects the session and kills yt-dlp. -/
theorem C4_amended_exit_code_only_witness :
    (runPipe (some 0) [PipeEvent.ffErrData, PipeEvent.ffClose 1]).settled =
      some (if (1 : Int) == 0 then PipeOutcome.resolved
            else PipeOutcome.rejected PipeFailure.pipedFailed) ∧
    (runPipe (some 0) [PipeEvent.ffErrData, PipeEvent.ffClose 1]).ytKilled
      = true :=
  C4_amended_exit_code_only (some 0) [PipeEvent.ffErrData] 1 (by decide)

/-- Claim C8: when a yt-dlp invocation fails with stderr indicating a
proxy connectivity failure while a --proxy argument is present (and the
distinct https-dependency downgrade predicate, consulted first, does
not match), the close handler retries exactly once with the --proxy
flag and its value stripped; a successful retry is resolved, a failing
retry rejects the ORIGINAL classified error context (original exit
code, stdout, stderr). -/
theorem C8_proxy_strip_retry (exec : List (List Char) → ProcResult)
    (args : List (List Char)) (pi : Nat)
    (hfail : ((exec args).code == 0) = false)
    (hnohttps : httpsDepsIndicated
      ((exec args).stderr ++ (exec args).stdout) = false)
    (hproxyerr : proxyFailureIndicated
      ((exec args).stderr ++ (exec args).stdout) = true)
    (hpi : idxOfArg args (cs ("--proxy")) = some pi) :
    runYtDlpModel exec args =
      (if (exec (args.take pi ++ args.drop (pi + 2))).code == 0
       then Except.ok (exec (args.take pi ++ args.drop (pi + 2)))
       else Except.error
         ⟨(exec args).code, (exec args).stdout, (exec args).stderr⟩) := by
  simp only [runYtDlpModel, hfail, hnohttps, hproxyerr, hpi,
    Bool.false_eq_true, if_false, if_true]

/-- Concrete argument vector for the C8 witness: proxy flag at index 1. -/
def c8args : List (List Char) :=
  [cs ("-x"), cs ("--proxy"), cs ("http://proxy.example:8080"),
   cs ("https://www.youtube.com/watch?v=abc12345678")]

/-- Concrete spawn oracle for the C8 witness: the proxied invocation
fails with a proxy connectivity message, any other argument vector
(in particular the stripped retry) succeeds. -/
def c8exec : List (List Char) → ProcResult := fun a =>
  if a = c8args then ⟨1, [], cs ("ERROR: Unable to connect to proxy")⟩
  else ⟨0, cs ("downloaded"), []⟩

/-- Witness for C8 at the concrete oracle above. -/
theorem C8_proxy_strip_retry_witness :
    runYtDlpModel c8exec c8args =
      (if (c8exec (c8args.take 1 ++ c8args.drop 3)).code == 0
       then Except.ok (c8exec (c8args.take 1 ++ c8args.drop 3))
       else Except.error
         ⟨(c8exec c8args).code, (c8exec c8args).stdout,
          (c8exec c8args).stderr⟩) :=
  C8_proxy_strip_retry c8exec c8args 1 (by decide) (by decide)
    (by decide) (by decide)

/-- Claim C1 (code bug): with the pipe fast path not attempted, layer 1
failing and layer 2 succeeding - the exact scenario of the claim - the
effective downloadVideoWithYtdlpUltimate does NOT return the artifact
path: control survives the fallback ladder, reaches line 1931 and
throws `ReferenceError: lastYtdlpError is not defined`, because that
variable was let-declared inside the `catch (firstErr)` block that has
already closed.  Both attempts are recorded, the artifact
ytdlp_job1.mp3 is discoverable in the output directory (second
conjunct), yet the function rejects. -/
theorem C1_fallback_success_reference_error :
    downloadUltimate false false
      (some (cs ("ERROR: Sign in to confirm you are not a bot")))
      none none none (cs ("/tmp")) (cs ("job1")) [cs ("ytdlp_job1.mp3")] =
      (Except.error JsThrow.referenceErrorLastYtdlpError, [1, 2]) ∧
    findProducedFile (cs ("/tmp")) (cs ("job1")) [cs ("ytdlp_job1.mp3")] =
      Except.ok (cs ("/tmp/ytdlp_job1.mp3")) := by
  exact ⟨rfl, rfl⟩

/-- A cache listing extended with a name contains that name. -/
theorem contains_append_singleton (l : List (List Char)) (n : List Char) :
    (l ++ [n]).contains n = true := by
  have hmem : n ∈ l ++ [n] :=
    List.mem_append_right l (List.mem_singleton_self n)
  show (l ++ [n]).elem n = true
  exact List.elem_eq_true_of_mem hmem

/-- A fully successful URL-branch run of the handler: supported URL,
fulfilled download with a nonempty produced path that exists on disk,
successful cache copy.  The response points at the uuid-named cache
entry just appended, and the produced file is unlinked when distinct
from the cache path. -/
theorem handler_ok_run (u p url : List Char) (cache0 : List (List Char))
    (prem : Bool)
    (hsup : isSupportedVideoUrl (trimChars url) = true)
    (hp : p.isEmpty = false) :
    convertVideoHandler ⟨u, Except.ok p, true, true, true, true⟩ cache0
      ⟨some url, none, prem⟩ =
      ⟨HandlerResp.okUrl (u ++ cs (".mp3")),
       cache0 ++ [u ++ cs (".mp3")],
       if p ≠ cachePathOf (u ++ cs (".mp3")) then [p] else [],
       1, 1⟩ := by
  simp only [convertVideoHandler, hsup, hp, Bool.not_true,
    Bool.false_eq_true, if_false, contains_append_singleton, if_true]

/-- Request used by the C2 counterexample: one fixed, already-canonical
reference, standard tier. -/
def c2req : ConvertReq :=
  ⟨some (cs ("https://www.youtube.com/watch?v=abc12345678")), none, false⟩

/-- First job's environment for C2: its own uuid and produced path. -/
def c2envA : HandlerEnv :=
  ⟨cs ("0a53776e-1111"), Except.ok (cs ("/tmp/ytdlp_a.mp3")),
   true, true, true, true⟩

/-- Second job's environment for C2: a different uuid (uuidv4 collisions
aside, every request draws a fresh name). -/
def c2envB : HandlerEnv :=
  ⟨cs ("7b991c4d-2222"), Except.ok (cs ("/tmp/ytdlp_b.mp3")),
   true, true, true, true⟩

/-- Claim C2, counterexample: the claim says two jobs with the same
normalized reference and tier leave exactly one cache entry and hand
both callers a path to one byte-identical artifact.  The handler keys
the cache by a fresh uuid per request (`${uuidv4()}.mp3`), performs no
lookup by reference, and so the two identical jobs below finish with
TWO cache entries and the callers receive two different paths.  (The
model runs the two jobs to completion in sequence; the single-threaded
event loop interleaving cannot change the names chosen, so this is the
best case for the claim.) -/
theorem C2_counterexample :
    (convertVideoHandler c2envA [] c2req).resp =
      HandlerResp.okUrl (cs ("0a53776e-1111.mp3")) ∧
    (convertVideoHandler c2envB
      (convertVideoHandler c2envA [] c2req).cache c2req).resp =
      HandlerResp.okUrl (cs ("7b991c4d-2222.mp3")) ∧
    (convertVideoHandler c2envB
      (convertVideoHandler c2envA [] c2req).cache c2req).cache =
      [cs ("0a53776e-1111.mp3"), cs ("7b991c4d-2222.mp3")] ∧
    (convertVideoHandler c2envB
      (convertVideoHandler c2envA [] c2req).cache c2req).cache.length ≠ 1 := by
  exact ⟨rfl, rfl, rfl, by decide⟩

/-- Claim C2, amended: each job stores its artifact under its own
per-request uuid name - the cache is keyed per request, not by the
normalized reference - so two successful jobs with the same normalized
reference and tier leave two distinct cache entries, and each caller
receives its own entry's path. -/
theorem C2_amended_two_entries (u1 u2 p1 p2 url : List Char)
    (cache0 : List (List Char)) (prem : Bool)
    (hsup : isSupportedVideoUrl (trimChars url) = true)
    (hp1 : p1.isEmpty = false) (hp2 : p2.isEmpty = false)
    (hne : u1 ≠ u2) :
    (convertVideoHandler ⟨u1, Except.ok p1, true, true, true, true⟩
      cache0 ⟨some url, none, prem⟩).resp =
      HandlerResp.okUrl (u1 ++ cs (".mp3")) ∧
    (convertVideoHandler ⟨u2, Except.ok p2, true, true, true, true⟩
      (convertVideoHandler ⟨u1, Except.ok p1, true, true, true, true⟩
        cache0 ⟨some url, none, prem⟩).cache
      ⟨some url, none, prem⟩).resp =
      HandlerResp.okUrl (u2 ++ cs (".mp3")) ∧
    (convertVideoHandler ⟨u2, Except.ok p2, true, true, true, true⟩
      (convertVideoHandler ⟨u1, Except.ok p1, true, true, true, true⟩
        cache0 ⟨some url, none, prem⟩).cache
      ⟨some url, none, prem⟩).cache =
      cache0 ++ [u1 ++ cs (".mp3")] ++ [u2 ++ cs (".mp3")] ∧
    u1 ++ cs (".mp3") ≠ u2 ++ cs (".mp3") := by
  rw [handler_ok_run u1 p1 url cache0 prem hsup hp1]
  rw [handler_ok_run u2 p2 url (cache0 ++ [u1 ++ cs (".mp3")]) prem hsup hp2]
  refine ⟨rfl, rfl, rfl, ?_⟩
  intro h
  exact hne (List.append_cancel_right h)

/-- Witness for the amended C2 at concrete uuids, paths and reference. -/
theorem C2_amended_two_entries_witness :
    (convertVideoHandler
      ⟨cs ("aaaa"), Except.ok (cs ("/tmp/a.mp3")), true, true, true, true⟩
      [] ⟨some (cs ("https://youtu.be/abc12345678")), none, false⟩).resp =
      HandlerResp.okUrl (cs ("aaaa") ++ cs (".mp3")) :=
  (C2_amended_two_entries (cs ("aaaa")) (cs ("bbbb"))
    (cs ("/tmp/a.mp3")) (cs ("/tmp/b.mp3"))
    (cs ("https://youtu.be/abc12345678")) [] false
    (by decide) (by decide) (by decide) (by decide)).1

/-- Environment for the C7 counterexample: the download fulfilled and
the produced file exists (the conversion succeeded), but both the copy
into the cache and the rename fallback fail. -/
def c7env : HandlerEnv :=
  ⟨cs ("c7name"), Except.ok (cs ("/tmp/ytdlp_c7.mp3")),
   true, false, false, true⟩

/-- Claim C7, counterexample: the claim says a failed cache copy after
a successful conversion is non-fatal - logged only - and the caller
still receives the freshly produced (uncached) result.  In the source,
a copy failure falls back to a rename, and when that also fails the
handler throws CACHE_WRITE_FAILED into its catch block and answers
500 PROCESSING_ERROR: the job below has a fully successful conversion
yet the caller gets an error response, never the produced path. -/
theorem C7_counterexample :
    convertVideoHandler c7env []
      ⟨some (cs ("https://youtu.be/abc12345678")), none, false⟩ =
      ⟨HandlerResp.serverError (cs ("PROCESSING_ERROR")), [], [], 1, 1⟩ := by
  exact rfl

/-- Claim C7, amended: when the cache copy fails the handler retries
with a rename into the cache path; if the rename succeeds the job
still succeeds, but the caller receives the uuid-named CACHE entry
(never the uncached produced path), and if the rename also fails the
job fails with CACHE_WRITE_FAILED surfaced as a 500 PROCESSING_ERROR
response. -/
theorem C7_cache_write_amended (env : HandlerEnv)
    (url p : List Char) (cache0 : List (List Char)) (prem : Bool)
    (hsup : isSupportedVideoUrl (trimChars url) = true)
    (hdl : env.download = Except.ok p) (hp : p.isEmpty = false)
    (hex : env.producedExists = true) (hcopy : env.copyOk = false) :
    (env.renameOk = true →
      convertVideoHandler env cache0 ⟨some url, none, prem⟩ =
        ⟨HandlerResp.okUrl (env.freshName ++ cs (".mp3")),
         cache0 ++ [env.freshName ++ cs (".mp3")], [], 1, 1⟩) ∧
    (env.renameOk = false →
      convertVideoHandler env cache0 ⟨some url, none, prem⟩ =
        ⟨HandlerResp.serverError (cs ("PROCESSING_ERROR")),
         cache0, [], 1, 1⟩) := by
  constructor
  · intro hren
    simp only [convertVideoHandler, hsup, hdl, hp, hex, hcopy, hren,
      Bool.not_true, Bool.false_eq_true, if_false, if_true,
      contains_append_singleton]
  · intro hren
    simp only [convertVideoHandler, hsup, hdl, hp, hex, hcopy, hren,
      Bool.not_true, Bool.false_eq_true, if_false, if_true]

/-- Witness for the amended C7: the rename fallback saves the job and
the caller is pointed at the cache entry. -/
theorem C7_cache_write_amended_witness :
    convertVideoHandler
      ⟨cs ("c7w"), Except.ok (cs ("/tmp/ytdlp_w.mp3")), true, false, true, true⟩
      [] ⟨some (cs ("https://youtu.be/abc12345678")), none, false⟩ =
      ⟨HandlerResp.okUrl (cs ("c7w") ++ cs (".mp3")),
       [] ++ [cs ("c7w") ++ cs (".mp3")], [], 1, 1⟩ :=
  (C7_cache_write_amended
    ⟨cs ("c7w"), Except.ok (cs ("/tmp/ytdlp_w.mp3")), true, false, true, true⟩
    (cs ("https://youtu.be/abc12345678")) (cs ("/tmp/ytdlp_w.mp3")) [] false
    (by decide) rfl (by decide) rfl rfl).1 rfl

/-- Claim C10: a request carrying BOTH a video URL and an uploaded file
is not rejected: the handler behaves exactly as if only the URL had
been sent (the upload branch is an else-if and never runs), and the
uploaded temporary file is not touched by the conversion flow (it is
neither converted nor unlinked). -/
theorem C10_upload_ignored_with_url (env : HandlerEnv)
    (cache0 : List (List Char)) (url f : List Char) (prem : Bool)
    (hnf : env.download ≠ Except.ok f) :
    convertVideoHandler env cache0 ⟨some url, some f, prem⟩ =
      convertVideoHandler env cache0 ⟨some url, none, prem⟩ ∧
    f ∉ (convertVideoHandler env cache0 ⟨some url, some f, prem⟩).unlinked := by
  refine ⟨rfl, ?_⟩
  cases hdl : env.download with
  | error e =>
    simp only [convertVideoHandler, hdl]
    split_ifs <;> simp
  | ok p =>
    have hpf : p ≠ f := fun h => hnf (h ▸ hdl)
    have hfp : f ≠ p := fun h => hpf h.symm
    simp only [convertVideoHandler, hdl]
    split_ifs <;> simp_all

/-- Witness for C10 at a concrete request carrying both inputs. -/
theorem C10_upload_ignored_with_url_witness :
    convertVideoHandler c2envA []
      ⟨some (cs ("https://youtu.be/abc12345678")),
       some (cs ("/tmp/upload_1")), false⟩ =
      convertVideoHandler c2envA []
        ⟨some (cs ("https://youtu.be/abc12345678")), none, false⟩ ∧
    cs ("/tmp/upload_1") ∉
      (convertVideoHandler c2envA []
        ⟨some (cs ("https://youtu.be/abc12345678")),
         some (cs ("/tmp/upload_1")), false⟩).unlinked :=
  C10_upload_ignored_with_url c2envA [] (cs ("https://youtu.be/abc12345678"))
    (cs ("/tmp/upload_1")) false
    (fun h => absurd (Except.ok.inj h) (by decide))

/-! ## Helper lemmas for the URL normalizer (claim C6) -/

/-- An id character is distinct from any character that is not an id
character. -/
theorem idChar_beq_false (c d : Char) (h : isIdChar c = true)
    (hd : isIdChar d = false) : (c == d) = false := by
  have hne : c ≠ d := by
    intro he
    rw [he, hd] at h
    cases h
  exact beq_eq_false_iff_ne.mpr hne

/-- Frequently needed inequations for an id character: it is none of
the delimiter characters the parser scans for. -/
theorem idChar_stops (c : Char) (h : isIdChar c = true) :
    (c == '/') = false ∧ (c == '?') = false ∧ (c == '#') = false ∧
    (c == ':') = false ∧ (c == '@') = false ∧ (c == '&') = false ∧
    (c == '=') = false ∧ (c == '%') = false ∧ (c == '+') = false :=
  ⟨idChar_beq_false c _ h (by decide), idChar_beq_false c _ h (by decide),
   idChar_beq_false c _ h (by decide), idChar_beq_false c _ h (by decide),
   idChar_beq_false c _ h (by decide), idChar_beq_false c _ h (by decide),
   idChar_beq_false c _ h (by decide), idChar_beq_false c _ h (by decide),
   idChar_beq_false c _ h (by decide)⟩

/-- An id character is not JavaScript whitespace. -/
theorem idChar_not_ws (c : Char) (h : isIdChar c = true) :
    isJsWhitespace c = false := by
  simp only [isJsWhitespace,
    idChar_beq_false c ' ' h (by decide),
    idChar_beq_false c '\t' h (by decide),
    idChar_beq_false c '\n' h (by decide),
    idChar_beq_false c '\r' h (by decide),
    idChar_beq_false c (Char.ofNat 11) h (by decide),
    idChar_beq_false c (Char.ofNat 12) h (by decide),
    Bool.or_self, Bool.or_false]

/-- An id character survives the form-urlencoded serializer verbatim. -/
theorem idChar_formSafe (c : Char) (h : isIdChar c = true) :
    formSafeChar c = true := by
  simp only [isIdChar, Bool.or_eq_true, beq_iff_eq] at h
  rcases h with ((h | h) | h) | h
  · simp [formSafeChar, h]
  · simp [formSafeChar, h]
  · subst h; decide
  · subst h; decide

/-- An id character survives the path serializer verbatim. -/
theorem idChar_pathSafe (c : Char) (h : isIdChar c = true) :
    pathSafeChar c = true := by
  simp only [isIdChar, Bool.or_eq_true, beq_iff_eq] at h
  rcases h with ((h | h) | h) | h
  · simp [pathSafeChar, h]
  · simp [pathSafeChar, h]
  · subst h; decide
  · subst h; decide

/-- dropWhile is the identity when no character satisfies the scan. -/
theorem dropWhile_eq_self_of_all (p : Char → Bool) (l : List Char)
    (h : l.all (fun c => !p c) = true) : l.dropWhile p = l := by
  cases l with
  | nil => rfl
  | cons c r =>
    simp only [List.all_cons, Bool.and_eq_true, Bool.not_eq_true'] at h
    simp [List.dropWhile_cons, h.1]

/-- takeWhile keeps everything when every character satisfies the scan. -/
theorem takeWhile_eq_self_of_all (p : Char → Bool) (l : List Char)
    (h : l.all p = true) : l.takeWhile p = l := by
  induction l with
  | nil => rfl
  | cons c r ih =>
    simp only [List.all_cons, Bool.and_eq_true] at h
    simp [List.takeWhile_cons, h.1, ih h.2]

/-- dropWhile drops everything when every character satisfies the scan. -/
theorem dropWhile_eq_nil_of_all (p : Char → Bool) (l : List Char)
    (h : l.all p = true) : l.dropWhile p = [] := by
  induction l with
  | nil => rfl
  | cons c r ih =>
    simp only [List.all_cons, Bool.and_eq_true] at h
    simp [List.dropWhile_cons, h.1, ih h.2]

/-- takeWhile over an append when the stop lies in the first part. -/
theorem takeWhile_append_of_stop (p : Char → Bool) (l1 l2 : List Char)
    (h : (l1.dropWhile p).isEmpty = false) :
    (l1 ++ l2).takeWhile p = l1.takeWhile p := by
  induction l1 with
  | nil => simp [List.dropWhile] at h
  | cons c r ih =>
    by_cases hc : p c
    · simp only [List.dropWhile_cons, hc, if_true] at h
      simp [List.takeWhile_cons, hc, ih h]
    · simp [List.takeWhile_cons, hc]

/-- dropWhile over an append when the stop lies in the first part. -/
theorem dropWhile_append_of_stop (p : Char → Bool) (l1 l2 : List Char)
    (h : (l1.dropWhile p).isEmpty = false) :
    (l1 ++ l2).dropWhile p = l1.dropWhile p ++ l2 := by
  induction l1 with
  | nil => simp [List.dropWhile] at h
  | cons c r ih =>
    by_cases hc : p c
    · simp only [List.dropWhile_cons, hc, if_true] at h
      simp [List.dropWhile_cons, hc, ih h]
    · simp [List.dropWhile_cons, hc]

/-- breakAt over an append when the stop lies in the first part. -/
theorem breakAt_append_of_stop (p : Char → Bool) (l1 l2 : List Char)
    (h : (l1.dropWhile (fun c => !p c)).isEmpty = false) :
    breakAt p (l1 ++ l2) =
      (l1.takeWhile (fun c => !p c), l1.dropWhile (fun c => !p c) ++ l2) := by
  unfold breakAt
  rw [takeWhile_append_of_stop _ _ _ h, dropWhile_append_of_stop _ _ _ h]

/-- breakAt passes a list through whole when no character stops it. -/
theorem breakAt_all_pass (p : Char → Bool) (l : List Char)
    (h : l.all (fun c => !p c) = true) : breakAt p l = (l, []) := by
  unfold breakAt
  rw [takeWhile_eq_self_of_all _ _ h, dropWhile_eq_nil_of_all _ _ h]

/-- splitOnChar yields a single piece when the separator is absent. -/
theorem splitOnChar_no_sep (sep : Char) (l : List Char)
    (h : l.all (fun c => !(c == sep)) = true) :
    splitOnChar sep l = [l] := by
  induction l with
  | nil => rfl
  | cons c r ih =>
    simp only [List.all_cons, Bool.and_eq_true, Bool.not_eq_true'] at h
    simp [splitOnChar, h.1, ih h.2]

/-- splitOnChar never yields an empty piece list. -/
theorem splitOnChar_ne_nil (sep : Char) (l : List Char) :
    splitOnChar sep l ≠ [] := by
  cases l with
  | nil => simp [splitOnChar]
  | cons c r =>
    by_cases hc : (c == sep) = true
    · simp [splitOnChar, hc]
    · simp only [splitOnChar, hc, if_false]
      cases splitOnChar sep r <;> simp

/-- splitOnChar across the first separator occurrence. -/
theorem splitOnChar_append_sep (sep : Char) (l1 l2 : List Char)
    (h : l1.all (fun c => !(c == sep)) = true) :
    splitOnChar sep (l1 ++ sep :: l2) = l1 :: splitOnChar sep l2 := by
  induction l1 with
  | nil => simp [splitOnChar]
  | cons c r ih =>
    simp only [List.all_cons, Bool.and_eq_true, Bool.not_eq_true'] at h
    have step := ih h.2
    simp only [List.cons_append, splitOnChar, h.1, Bool.false_eq_true,
      if_false, List.append_eq, step]

/-- A cons whose head is neither plus nor percent decodes head-first. -/
theorem formDecode_cons_of_ne (c : Char) (r : List Char)
    (h1 : (c == '+') = false) (h2 : (c == '%') = false) :
    formDecode (c :: r) = c :: formDecode r := by
  rw [formDecode.eq_def]
  split <;> simp_all

/-- formDecode is the identity on plain id strings (no percent escapes,
no plus signs). -/
theorem formDecode_plain (l : List Char) (h : l.all isIdChar = true) :
    formDecode l = l := by
  induction l with
  | nil => rfl
  | cons c r ih =>
    simp only [List.all_cons, Bool.and_eq_true] at h
    have k := idChar_stops c h.1
    rw [formDecode_cons_of_ne c r k.2.2.2.2.2.2.2.2 k.2.2.2.2.2.2.2.1,
      ih h.2]

/-- formEncode is the identity on plain id strings. -/
theorem formEncode_plain (l : List Char) (h : l.all isIdChar = true) :
    formEncode l = l := by
  induction l with
  | nil => rfl
  | cons c r ih =>
    simp only [List.all_cons, Bool.and_eq_true] at h
    have hsp : (c == ' ') = false := idChar_beq_false c ' ' h.1 (by decide)
    rw [formEncode]
    simp [hsp, idChar_formSafe c h.1, ih h.2]

/-- The path serializer is the identity on path-safe strings. -/
theorem encodePathChars_of_all (l : List Char)
    (h : l.all pathSafeChar = true) : encodePathChars l = l := by
  induction l with
  | nil => rfl
  | cons c r ih =>
    simp only [List.all_cons, Bool.and_eq_true] at h
    rw [encodePathChars]
    simp [h.1, ih h.2]

/-- trim is the identity on whitespace-free strings. -/
theorem trimChars_of_all (l : List Char)
    (h : l.all (fun c => !isJsWhitespace c) = true) : trimChars l = l := by
  unfold trimChars
  rw [dropWhile_eq_self_of_all _ _ h]
  rw [dropWhile_eq_self_of_all _ _ (by simpa using h)]
  simp

/-- Plain id strings contain no whitespace. -/
theorem plain_not_ws (id : List Char) (hall : id.all isIdChar = true) :
    id.all (fun c => !isJsWhitespace c) = true := by
  rw [List.all_eq_true] at hall ⊢
  intro c hc
  simp [idChar_not_ws c (hall c hc)]

/-- Plain id strings contain no hash character. -/
theorem plain_not_hash (id : List Char) (hall : id.all isIdChar = true) :
    id.all (fun c => !(c == '#')) = true := by
  rw [List.all_eq_true] at hall ⊢
  intro c hc
  simp [(idChar_stops c (hall c hc)).2.2.1]

/-- Plain id strings contain no ampersand. -/
theorem plain_not_amp (id : List Char) (hall : id.all isIdChar = true) :
    id.all (fun c => !(c == '&')) = true := by
  rw [List.all_eq_true] at hall ⊢
  intro c hc
  simp [(idChar_stops c (hall c hc)).2.2.2.2.2.1]

/-- Plain id strings contain neither question mark nor hash. -/
theorem plain_not_qhash (id : List Char) (hall : id.all isIdChar = true) :
    id.all (fun c => !(c == '?' || c == '#')) = true := by
  rw [List.all_eq_true] at hall ⊢
  intro c hc
  have k := idChar_stops c (hall c hc)
  simp [k.2.1, k.2.2.1]

/-- Plain id strings contain no slash. -/
theorem plain_not_slash (id : List Char) (hall : id.all isIdChar = true) :
    id.all (fun c => !(c == '/')) = true := by
  rw [List.all_eq_true] at hall ⊢
  intro c hc
  simp [(idChar_stops c (hall c hc)).1]

/-- Plain id strings pass the bne-slash scan of the youtu.be branch. -/
theorem plain_bne_slash (id : List Char) (hall : id.all isIdChar = true) :
    id.all (fun c => c != '/') = true := by
  rw [List.all_eq_true] at hall ⊢
  intro c hc
  simp [bne, (idChar_stops c (hall c hc)).1]

/-- Plain id strings are path-safe. -/
theorem plain_pathSafe (id : List Char) (hall : id.all isIdChar = true) :
    id.all pathSafeChar = true := by
  rw [List.all_eq_true] at hall ⊢
  intro c hc
  exact idChar_pathSafe c (hall c hc)

/-- dropWhile over a concrete prefix with a stop, followed by anything. -/
theorem dropWhile_concrete_stop (p : Char → Bool) (l1 l2 d : List Char)
    (hd : l1.dropWhile p = d) (hne : d.isEmpty = false) :
    (l1 ++ l2).dropWhile p = d ++ l2 := by
  rw [dropWhile_append_of_stop p l1 l2 (by rw [hd]; exact hne), hd]

/-- breakAt over a concrete prefix with a stop, followed by anything. -/
theorem breakAt_concrete_stop (p : Char → Bool) (l1 l2 t d : List Char)
    (ht : l1.takeWhile (fun c => !p c) = t)
    (hd : l1.dropWhile (fun c => !p c) = d)
    (hne : d.isEmpty = false) :
    breakAt p (l1 ++ l2) = (t, d ++ l2) := by
  rw [breakAt_append_of_stop p l1 l2 (by rw [hd]; exact hne), ht, hd]

/-- schemeSplit on an https-prefixed input. -/
theorem schemeSplit_https (rest : List Char) :
    schemeSplit (cs ("https:") ++ rest) = some (cs ("https"), rest) := by
  rw [show cs ("https:") ++ rest = 'h' :: (cs ("ttps:") ++ rest) from rfl]
  rw [schemeSplit]
  rw [show ('h' :: (cs ("ttps:") ++ rest) : List Char) =
    cs ("https:") ++ rest from rfl]
  rw [breakAt_concrete_stop
    (fun c => !(c.isAlpha || c.isDigit || c == '+' || c == '.' || c == '-'))
    (cs ("https:")) rest (cs ("https")) (cs (":"))
    (by decide) (by decide) (by decide)]
  rfl

/-- parsePathSearch on the watch path section with a plain id. -/
theorem parsePathSearch_watch (id : List Char)
    (hall : id.all isIdChar = true) :
    parsePathSearch (cs ("/watch?v=") ++ id) =
      (cs ("/watch"), cs ("v=") ++ id) := by
  rw [show cs ("/watch?v=") ++ id = '/' :: (cs ("watch?v=") ++ id) from rfl]
  simp only [parsePathSearch, breakAt]
  rw [show ('/' :: (cs ("watch?v=") ++ id) : List Char) =
    cs ("/watch?v=") ++ id from rfl]
  rw [takeWhile_append_of_stop _ _ _ (by decide),
      dropWhile_append_of_stop _ _ _ (by decide)]
  rw [show (cs ("/watch?v=")).takeWhile
      (fun c => !(c == '?' || c == '#')) = cs ("/watch") from by decide]
  rw [show (cs ("/watch?v=")).dropWhile
      (fun c => !(c == '?' || c == '#')) = cs ("?v=") from by decide]
  rw [show cs ("?v=") ++ id = '?' :: (cs ("v=") ++ id) from rfl]
  simp only []
  rw [takeWhile_eq_self_of_all _ _ (by
    rw [List.all_append, plain_not_hash id hall]
    decide)]

/-- Parsing the canonical watch URL with a plain id appended. -/
theorem parseJsUrl_watch (id : List Char) (hall : id.all isIdChar = true) :
    parseJsUrl (cs ("https://www.youtube.com/watch?v=") ++ id) true =
      some ⟨cs ("https"), cs ("www.youtube.com"), cs ("/watch"),
            cs ("v=") ++ id⟩ := by
  rw [show cs ("https://www.youtube.com/watch?v=") ++ id =
      cs ("https:") ++ (cs ("//www.youtube.com/watch?v=") ++ id) from rfl]
  rw [parseJsUrl, schemeSplit_https]
  rw [show cs ("https:") ++ (cs ("//www.youtube.com/watch?v=") ++ id) =
      'h' :: (cs ("ttps://www.youtube.com/watch?v=") ++ id) from rfl]
  simp only []
  rw [if_pos (by decide)]
  rw [dropWhile_concrete_stop (fun c => c == '/')
    (cs ("//www.youtube.com/watch?v=")) id
    (cs ("www.youtube.com/watch?v=")) (by decide) (by decide)]
  rw [mkFromAuthority]
  rw [breakAt_concrete_stop (fun c => c == '/' || c == '?' || c == '#')
    (cs ("www.youtube.com/watch?v=")) id
    (cs ("www.youtube.com")) (cs ("/watch?v="))
    (by decide) (by decide) (by decide)]
  simp only []
  rw [parsePathSearch_watch id hall]
  rfl
  -- the remaining cases certify that the input matches none of the
  -- relative-resolution patterns of the parser
  next => intro h; injection h
  next => intro r h; injection h with h1 h2; exact absurd h1 (by decide)
  next => intro tail h; injection h with h1 h2; exact absurd h1 (by decide)
  next => intro q h; injection h with h1 h2; exact absurd h1 (by decide)
  next => intro tail h; injection h with h1 h2; exact absurd h1 (by decide)

/-- parsePathSearch on a root path followed by a plain id. -/
theorem parsePathSearch_root (id : List Char)
    (hall : id.all isIdChar = true) :
    parsePathSearch (cs ("/") ++ id) = (cs ("/") ++ id, []) := by
  rw [show cs ("/") ++ id = '/' :: id from rfl]
  simp only [parsePathSearch, breakAt]
  have pass : ('/' :: id).all (fun c => !(c == '?' || c == '#')) = true := by
    rw [List.all_cons, plain_not_qhash id hall]
    decide
  rw [takeWhile_eq_self_of_all _ _ pass, dropWhile_eq_nil_of_all _ _ pass]

/-- Parsing the youtu.be short link with a plain id appended. -/
theorem parseJsUrl_yb (id : List Char) (hall : id.all isIdChar = true) :
    parseJsUrl (cs ("https://youtu.be/") ++ id) true =
      some ⟨cs ("https"), cs ("youtu.be"), cs ("/") ++ id, []⟩ := by
  rw [show cs ("https://youtu.be/") ++ id =
      cs ("https:") ++ (cs ("//youtu.be/") ++ id) from rfl]
  rw [parseJsUrl, schemeSplit_https]
  rw [show cs ("https:") ++ (cs ("//youtu.be/") ++ id) =
      'h' :: (cs ("ttps://youtu.be/") ++ id) from rfl]
  simp only []
  rw [if_pos (by decide)]
  rw [dropWhile_concrete_stop (fun c => c == '/') (cs ("//youtu.be/")) id
    (cs ("youtu.be/")) (by decide) (by decide)]
  rw [mkFromAuthority]
  rw [breakAt_concrete_stop (fun c => c == '/' || c == '?' || c == '#')
    (cs ("youtu.be/")) id (cs ("youtu.be")) (cs ("/"))
    (by decide) (by decide) (by decide)]
  simp only []
  rw [parsePathSearch_root id hall]
  simp only []
  rw [encodePathChars_of_all _ (by
    rw [List.all_append, plain_pathSafe id hall]
    decide)]
  rfl
  next => intro h; injection h
  next => intro r h; injection h with h1 h2; exact absurd h1 (by decide)
  next => intro tail h; injection h with h1 h2; exact absurd h1 (by decide)
  next => intro q h; injection h with h1 h2; exact absurd h1 (by decide)
  next => intro tail h; injection h with h1 h2; exact absurd h1 (by decide)

/-- parsePathSearch on the embed path section with a plain id. -/
theorem parsePathSearch_embed (id : List Char)
    (hall : id.all isIdChar = true) :
    parsePathSearch (cs ("/embed/") ++ id) = (cs ("/embed/") ++ id, []) := by
  rw [show cs ("/embed/") ++ id = '/' :: (cs ("embed/") ++ id) from rfl]
  simp only [parsePathSearch, breakAt]
  rw [show ('/' :: (cs ("embed/") ++ id) : List Char) =
    cs ("/embed/") ++ id from rfl]
  have pass : (cs ("/embed/") ++ id).all
      (fun c => !(c == '?' || c == '#')) = true := by
    rw [List.all_append, plain_not_qhash id hall]
    decide
  rw [takeWhile_eq_self_of_all _ _ pass, dropWhile_eq_nil_of_all _ _ pass]

/-- Parsing the embed-path variant with a plain id appended. -/
theorem parseJsUrl_embed (id : List Char) (hall : id.all isIdChar = true) :
    parseJsUrl (cs ("https://www.youtube.com/embed/") ++ id) true =
      some ⟨cs ("https"), cs ("www.youtube.com"),
            cs ("/embed/") ++ id, []⟩ := by
  rw [show cs ("https://www.youtube.com/embed/") ++ id =
      cs ("https:") ++ (cs ("//www.youtube.com/embed/") ++ id) from rfl]
  rw [parseJsUrl, schemeSplit_https]
  rw [show cs ("https:") ++ (cs ("//www.youtube.com/embed/") ++ id) =
      'h' :: (cs ("ttps://www.youtube.com/embed/") ++ id) from rfl]
  simp only []
  rw [if_pos (by decide)]
  rw [dropWhile_concrete_stop (fun c => c == '/')
    (cs ("//www.youtube.com/embed/")) id
    (cs ("www.youtube.com/embed/")) (by decide) (by decide)]
  rw [mkFromAuthority]
  rw [breakAt_concrete_stop (fun c => c == '/' || c == '?' || c == '#')
    (cs ("www.youtube.com/embed/")) id
    (cs ("www.youtube.com")) (cs ("/embed/"))
    (by decide) (by decide) (by decide)]
  simp only []
  rw [parsePathSearch_embed id hall]
  simp only []
  rw [encodePathChars_of_all _ (by
    rw [List.all_append, plain_pathSafe id hall]
    decide)]
  rfl
  next => intro h; injection h
  next => intro r h; injection h with h1 h2; exact absurd h1 (by decide)
  next => intro tail h; injection h with h1 h2; exact absurd h1 (by decide)
  next => intro q h; injection h with h1 h2; exact absurd h1 (by decide)
  next => intro tail h; injection h with h1 h2; exact absurd h1 (by decide)

/-- The query pairs of `v=<plain id>`. -/
theorem queryPairs_v (id : List Char) (hall : id.all isIdChar = true) :
    queryPairs (cs ("v=") ++ id) = [(cs ("v"), id)] := by
  unfold queryPairs
  rw [splitOnChar_no_sep '&' _ (by
    rw [List.all_append, plain_not_amp id hall]
    decide)]
  rw [show cs ("v=") ++ id = 'v' :: (cs ("=") ++ id) from rfl]
  simp only [List.filter, List.isEmpty, Bool.not_false, List.map]
  rw [show ('v' :: (cs ("=") ++ id) : List Char) = cs ("v=") ++ id from rfl]
  rw [breakAt_concrete_stop (fun c => c == '=') (cs ("v=")) id
    (cs ("v")) (cs ("=")) (by decide) (by decide) (by decide)]
  simp only []
  rw [show (cs ("=") ++ id).drop 1 = id from rfl]
  rw [formDecode_plain id hall]
  rfl

/-- searchParams.get of `v` on the rebuilt query. -/
theorem searchParamsGet_v (id : List Char) (hall : id.all isIdChar = true) :
    searchParamsGet (cs ("v=") ++ id) (cs ("v")) = some id := by
  rw [searchParamsGet, queryPairs_v id hall]
  simp [List.find?]

/-- searchParams.get of `t` on the rebuilt query is absent. -/
theorem searchParamsGet_t_none (id : List Char)
    (hall : id.all isIdChar = true) :
    searchParamsGet (cs ("v=") ++ id) (cs ("t")) = none := by
  rw [searchParamsGet, queryPairs_v id hall]
  rfl

/-- A plain segment is nonempty. -/
theorem plainSeg_ne (id : List Char) (h : isPlainSeg id = true) :
    id.isEmpty = false := by
  simp only [isPlainSeg, Bool.and_eq_true, Bool.not_eq_true'] at h
  exact h.1

/-- A plain segment is all id characters. -/
theorem plainSeg_all (id : List Char) (h : isPlainSeg id = true) :
    id.all isIdChar = true := by
  simp only [isPlainSeg, Bool.and_eq_true] at h
  exact h.2

/-- A bare 11-character id is a plain segment. -/
theorem plainSeg_of_id11 (x : List Char) (h : isPlainId11 x = true) :
    isPlainSeg x = true := by
  simp only [isPlainId11, Bool.and_eq_true] at h
  simp only [isPlainSeg, Bool.and_eq_true, Bool.not_eq_true']
  refine ⟨?_, h.2⟩
  cases x with
  | nil => simp at h
  | cons c r => rfl

/-- A prefix longer than 11 characters defeats the bare-id test. -/
theorem isPlainId11_append_false (pre id : List Char)
    (h : 11 < pre.length) : isPlainId11 (pre ++ id) = false := by
  unfold isPlainId11
  have hlen : (pre ++ id).length ≠ 11 := by
    rw [List.length_append]; omega
  rw [beq_eq_false_iff_ne.mpr hlen, Bool.false_and]

/-- The canonical watch URL with a plain id is a fixed point of the
normalizer. -/
theorem cleanVideoUrl_watch_fixed (id : List Char)
    (hseg : isPlainSeg id = true) :
    cleanVideoUrl (cs ("https://www.youtube.com/watch?v=") ++ id) =
      cs ("https://www.youtube.com/watch?v=") ++ id := by
  have hall := plainSeg_all id hseg
  have hne := plainSeg_ne id hseg
  unfold cleanVideoUrl
  rw [trimChars_of_all _ (by
    rw [List.all_append, plain_not_ws id hall]
    decide)]
  simp only []
  rw [show (cs ("https://www.youtube.com/watch?v=") ++ id).isEmpty = false
    from rfl]
  rw [isPlainId11_append_false _ _ (by decide)]
  rw [parseJsUrl_watch id hall]
  simp only [Bool.false_eq_true, if_false]
  rw [if_neg (by decide)]
  rw [if_pos (by decide)]
  rw [searchParamsGet_v id hall]
  simp only []
  rw [hne]
  simp only [Bool.false_eq_true, if_false]
  rw [searchParamsGet_t_none id hall]
  simp only []
  rw [formEncode_plain id hall]

/-- A bare 11-character id is normalized to the canonical watch URL. -/
theorem cleanVideoUrl_bare_id (x : List Char) (h11 : isPlainId11 x = true) :
    cleanVideoUrl x = cs ("https://www.youtube.com/watch?v=") ++ x := by
  have hall : x.all isIdChar = true := by
    simp only [isPlainId11, Bool.and_eq_true] at h11
    exact h11.2
  have hne : x.isEmpty = false :=
    plainSeg_ne x (plainSeg_of_id11 x h11)
  unfold cleanVideoUrl
  rw [trimChars_of_all _ (plain_not_ws x hall)]
  simp only []
  rw [hne]
  simp only [Bool.false_eq_true, if_false]
  rw [h11]
  simp only [if_true]
  rfl

/-- A youtu.be short link with a plain id is normalized to the
canonical watch URL. -/
theorem cleanVideoUrl_yb (id : List Char) (hseg : isPlainSeg id = true) :
    cleanVideoUrl (cs ("https://youtu.be/") ++ id) =
      cs ("https://www.youtube.com/watch?v=") ++ id := by
  have hall := plainSeg_all id hseg
  have hne := plainSeg_ne id hseg
  unfold cleanVideoUrl
  rw [trimChars_of_all _ (by
    rw [List.all_append, plain_not_ws id hall]
    decide)]
  simp only []
  rw [show (cs ("https://youtu.be/") ++ id).isEmpty = false from rfl]
  rw [isPlainId11_append_false _ _ (by decide)]
  rw [parseJsUrl_yb id hall]
  simp only [Bool.false_eq_true, if_false]
  rw [if_pos trivial]
  rw [show cs ("/") ++ id = '/' :: id from rfl]
  rw [show List.dropWhile (fun c => c == '/') ('/' :: id) =
    List.dropWhile (fun c => c == '/') id from by
      simp [List.dropWhile_cons]]
  rw [dropWhile_eq_self_of_all _ _ (plain_not_slash id hall)]
  rw [takeWhile_eq_self_of_all _ _ (plain_bne_slash id hall)]
  rw [hne]
  simp only [Bool.false_eq_true, if_false]
  rfl

/-- An embed-path variant with a plain id is normalized to the
canonical watch URL. -/
theorem cleanVideoUrl_embed (id : List Char) (hseg : isPlainSeg id = true) :
    cleanVideoUrl (cs ("https://www.youtube.com/embed/") ++ id) =
      cs ("https://www.youtube.com/watch?v=") ++ id := by
  have hall := plainSeg_all id hseg
  have hne := plainSeg_ne id hseg
  unfold cleanVideoUrl
  rw [trimChars_of_all _ (by
    rw [List.all_append, plain_not_ws id hall]
    decide)]
  simp only []
  rw [show (cs ("https://www.youtube.com/embed/") ++ id).isEmpty = false
    from rfl]
  rw [isPlainId11_append_false _ _ (by decide)]
  rw [parseJsUrl_embed id hall]
  simp only [Bool.false_eq_true, if_false]
  rw [if_neg (by decide)]
  rw [if_pos (by decide)]
  rw [show searchParamsGet ([] : List Char) (cs ("v")) = none from rfl]
  simp only []
  unfold pathFallbackResult splitPathSegs
  rw [show cs ("/embed/") ++ id = '/' :: (cs ("embed") ++ ('/' :: id))
    from rfl]
  rw [show splitOnChar '/' ('/' :: (cs ("embed") ++ ('/' :: id))) =
    [] :: splitOnChar '/' (cs ("embed") ++ ('/' :: id)) from by
      simp [splitOnChar]]
  rw [splitOnChar_append_sep '/' _ _ (by decide)]
  rw [splitOnChar_no_sep '/' id (plain_not_slash id hall)]
  rw [show List.filter (fun s => !s.isEmpty) ([] :: cs ("embed") :: [id]) =
      cs ("embed") :: [id] from by
    simp only [List.filter_cons, List.filter_nil, hne]
    rfl]
  simp only []
  unfold segAfter
  rw [show idxOfArg [cs ("embed"), id] (cs ("embed")) = some 0 from by
    unfold idxOfArg idxOfArg.go
    rw [if_pos rfl]]
  simp only [List.get?]
  rw [hne]
  simp only [Bool.false_eq_true, if_false]
  rfl

/-- Claim C6, counterexample: the claim asserts
normalize(normalize(x)) = normalize(x) for EVERY input string.  It
fails when the extracted identifier carries a percent escape: the
youtu.be branch copies the raw path segment `%41bcdefghijk` into the
rebuilt watch URL by template concatenation, but on the second pass
that string enters through searchParams.get, which percent-DECODES it
to `Abcdefghijk`, and the serializer re-encodes nothing, so the second
normalization differs from the first. -/
theorem C6_counterexample :
    cleanVideoUrl (cs ("https://youtu.be/%41bcdefghijk")) =
      cs ("https://www.youtube.com/watch?v=%41bcdefghijk") ∧
    cleanVideoUrl (cleanVideoUrl (cs ("https://youtu.be/%41bcdefghijk"))) =
      cs ("https://www.youtube.com/watch?v=Abcdefghijk") ∧
    cleanVideoUrl (cleanVideoUrl (cs ("https://youtu.be/%41bcdefghijk"))) ≠
      cleanVideoUrl (cs ("https://youtu.be/%41bcdefghijk")) := by
  refine ⟨rfl, rfl, ?_⟩
  intro h
  rw [show cleanVideoUrl (cleanVideoUrl (cs ("https://youtu.be/%41bcdefghijk")))
      = cs ("https://www.youtube.com/watch?v=Abcdefghijk") from rfl,
    show cleanVideoUrl (cs ("https://youtu.be/%41bcdefghijk"))
      = cs ("https://www.youtube.com/watch?v=%41bcdefghijk") from rfl] at h
  exact absurd h (by decide)

/-- Claim C6, amended: normalize(normalize(x)) = normalize(x) holds for
the standard reference shapes whose identifiers are plain (characters
in `[A-Za-z0-9_-]`): bare 11-character identifiers, canonical watch
URLs, youtu.be short links, embed-path variants, and every input the
normalizer returns unchanged (which covers unparseable strings);
idempotence can fail only when the extracted identifier needs query
re-encoding, e.g. a percent escape as in the counterexample. -/
theorem C6_idempotent_on_standard_shapes (x : List Char)
    (h : isPlainId11 x = true ∨
      (∃ id, isPlainSeg id = true ∧
        x = cs ("https://www.youtube.com/watch?v=") ++ id) ∨
      (∃ id, isPlainSeg id = true ∧ x = cs ("https://youtu.be/") ++ id) ∨
      (∃ id, isPlainSeg id = true ∧
        x = cs ("https://www.youtube.com/embed/") ++ id) ∨
      cleanVideoUrl x = x) :
    cleanVideoUrl (cleanVideoUrl x) = cleanVideoUrl x := by
  rcases h with h | ⟨id, hs, rfl⟩ | ⟨id, hs, rfl⟩ | ⟨id, hs, rfl⟩ | h
  · rw [cleanVideoUrl_bare_id x h,
      cleanVideoUrl_watch_fixed x (plainSeg_of_id11 x h)]
  · rw [cleanVideoUrl_watch_fixed id hs, cleanVideoUrl_watch_fixed id hs]
  · rw [cleanVideoUrl_yb id hs, cleanVideoUrl_watch_fixed id hs]
  · rw [cleanVideoUrl_embed id hs, cleanVideoUrl_watch_fixed id hs]
  · rw [h, h]

/-- Witness for the amended C6 at a bare identifier and at a youtu.be
link. -/
theorem C6_idempotent_on_standard_shapes_witness :
    cleanVideoUrl (cleanVideoUrl (cs ("abc12345678"))) =
      cleanVideoUrl (cs ("abc12345678")) :=
  C6_idempotent_on_standard_shapes (cs ("abc12345678"))
    (Or.inl (by decide))

end VideoSvc
